import Mathlib

/-!
# Verification of `pachctl` command orchestration (src/server/cmd/pachctl/cmd/cmd.go)

A shallow embedding of the command logic of the `pachctl` front-end:

* the `migrate` command (version resolution, job construction, canonical
  serialization, scheduler submission),
* the `port-forward` command (an errgroup supervisor over three forward
  tasks with differing failure policies),
* the `delete-all` command (interactive confirmation gate).

External collaborators (the gRPC version query, `kubectl` subprocesses,
the temporary-file system, `bufio` line reading, the `errgroup` package,
the `ugorji/go/codec` canonical JSON encoder) are modelled by their
documented contracts; their outcomes enter the embedding as explicit
parameters so that every branch of the Go code is reflected.
-/

set_option autoImplicit false

namespace Pachctl

/-! ## Versions

`versionpb.Version` carries major/minor/micro components plus an
optional `Additional` qualifier string. -/

structure Version where
  major : Nat
  minor : Nat
  micro : Nat
  additional : String
  deriving Repr, DecidableEq

/-- Modelled from the spec: `version.PrettyPrintVersionNoAdditional`
(which lives in `src/client/version`, outside the provided source slice)
formats a version as `major.minor.micro` only, qualifiers stripped. -/
def prettyPrintVersionNoAdditional (v : Version) : String :=
  toString v.major ++ "." ++ toString v.minor ++ "." ++ toString v.micro

/-- Modelled from the spec: `version.PrettyPrintVersion` (outside the
provided source slice) formats a version for display; the additional
qualifier is "retained for display", appended after the
`major.minor.micro` core. -/
def prettyPrintVersion (v : Version) : String :=
  prettyPrintVersionNoAdditional v ++ v.additional

/-- `sanitizeErr` strips gRPC transport wrapping down to the underlying
description (`errors.New(grpc.ErrorDesc(err))`).  Error values are
modelled as their description strings, so the sanitizer is the identity
on the description. -/
def sanitizeErr (e : String) : String := e

/-! ## Job description

The `batch.Job` value built by the `migrate` command, restricted to the
fields the code populates. -/

structure Container where
  name : String
  image : String
  command : List String
  deriving Repr, DecidableEq

structure JobDescription where
  kind : String
  apiVersion : String
  name : String
  labels : List (String × String)
  containers : List Container
  restartPolicy : String
  deriving Repr, DecidableEq

/-- The `jobSpec` literal of the `migrate` command, as a function of the
resolved `from`/`to` strings and the client's own version. -/
def buildJobSpec (fromV toV : String) (own : Version) : JobDescription :=
  { kind := "Job"
    apiVersion := "batch/v1"
    name := "pach-migration"
    labels := [("suite", "pachyderm")]
    containers :=
      [{ name := "migration"
         image := "pachyderm/pachd:" ++ prettyPrintVersion own
         command := ["/pachd", "--migrate=" ++ fromV ++ "-" ++ toV] }]
    restartPolicy := "OnFailure" }

/-- A resolved migration request: the resolved `from`/`to` pair plus the
client's own version, the data from which the job is built. -/
structure MigrationRequest where
  fromV : String
  toV : String
  own : Version
  deriving Repr, DecidableEq

def buildJobFromRequest (r : MigrationRequest) : JobDescription :=
  buildJobSpec r.fromV r.toV r.own

/-! ## Canonical serialization

Modelled from the spec: the `ugorji/go/codec` JSON encoder is configured
with `Canonical: true` (stable, sorted key ordering for maps) and
`Indent: 2`; the encoder itself is an external library, so it is
modelled as a pure text encoding with sorted label keys and fixed
two-space indentation. -/

def quoteStr (s : String) : String := "\"" ++ s ++ "\""

def insertLabel (p : String × String) : List (String × String) → List (String × String)
  | [] => [p]
  | q :: qs => if p.1 ≤ q.1 then p :: q :: qs else q :: insertLabel p qs

/-- Insertion sort on label keys: the canonical (sorted) key order. -/
def sortLabels : List (String × String) → List (String × String)
  | [] => []
  | p :: ps => insertLabel p (sortLabels ps)

def serializeLabels (labels : List (String × String)) : String :=
  let fields := (sortLabels labels).map
    (fun p => "      " ++ quoteStr p.1 ++ ": " ++ quoteStr p.2)
  "\x7b\n" ++ String.intercalate ",\n" fields ++ "\n    \x7d"

def serializeContainer (c : Container) : String :=
  let args := c.command.map (fun a => "            " ++ quoteStr a)
  "        \x7b\n" ++
  "          \"command\": [\n" ++ String.intercalate ",\n" args ++ "\n          ],\n" ++
  "          \"image\": " ++ quoteStr c.image ++ ",\n" ++
  "          \"name\": " ++ quoteStr c.name ++ "\n" ++
  "        \x7d"

/-- The canonical text encoding of a `JobDescription`: fixed field
order, sorted label keys, two-space indentation. -/
def serializeJob (j : JobDescription) : String :=
  "\x7b\n" ++
  "  \"apiVersion\": " ++ quoteStr j.apiVersion ++ ",\n" ++
  "  \"kind\": " ++ quoteStr j.kind ++ ",\n" ++
  "  \"metadata\": \x7b\n" ++
  "    \"labels\": " ++ serializeLabels j.labels ++ ",\n" ++
  "    \"name\": " ++ quoteStr j.name ++ "\n" ++
  "  \x7d,\n" ++
  "  \"spec\": \x7b\n" ++
  "    \"template\": \x7b\n" ++
  "      \"spec\": \x7b\n" ++
  "        \"containers\": [\n" ++
  String.intercalate ",\n" (j.containers.map serializeContainer) ++ "\n" ++
  "        ],\n" ++
  "        \"restartPolicy\": " ++ quoteStr j.restartPolicy ++ "\n" ++
  "      \x7d\n" ++
  "    \x7d\n" ++
  "  \x7d\n" ++
  "\x7d\n"

/-! ## The `migrate` command

The environment records the outcomes of every external call the command
makes, in program order: the gRPC client construction (`grpc.Dial`), the
`GetVersion` query, the temporary-file creation, and the `kubectl
create` invocation. -/

structure MigrateEnv where
  address : String
  dialErr : Option String
  query : Except String Version
  ownVersion : Version
  tmpErr : Option String
  tmpName : String
  kubectlErr : Option String
  deriving Repr

structure MigrateOutcome where
  result : Option String
  queryInvoked : Bool
  resolvedFrom : Option String
  resolvedTo : Option String
  jobBuilt : Option JobDescription
  tempCreated : Bool
  serialized : Option String
  kubectlArgs : Option (List String)
  deriving Repr, DecidableEq

/-- The outcome of a run that fails before any version is resolved:
no job is built, no temporary file is created, nothing is submitted. -/
def earlyFailure (msg : String) (queried : Bool) : MigrateOutcome :=
  { result := some msg
    queryInvoked := queried
    resolvedFrom := none
    resolvedTo := none
    jobBuilt := none
    tempCreated := false
    serialized := none
    kubectlArgs := none }

/-- The `from == ""` branch of `migrate`: dial the version API, query the
cluster version with a 1s timeout, and on failure return the
`unable to discover cluster version` diagnostic.  Returns the resolved
`from` string and whether `GetVersion` was invoked. -/
def resolveFrom (env : MigrateEnv) (fromFlag : String) :
    Except MigrateOutcome (String × Bool) :=
  if fromFlag = "" then
    match env.dialErr with
    | some e => .error (earlyFailure (sanitizeErr e) false)
    | none =>
      match env.query with
      | .error e =>
        .error (earlyFailure
          ("unable to discover cluster version; please provide the --from flag.  Error: " ++ e)
          true)
      | .ok v => .ok (prettyPrintVersionNoAdditional v, true)
  else
    .ok (fromFlag, false)

/-- The tail of the `migrate` run after both versions are resolved:
build the job spec, create the temporary file, serialize, invoke
`kubectl create --validate=false -f <tmp>`. -/
def migrateAfterResolve (env : MigrateEnv) (fromV toV : String)
    (queried : Bool) : MigrateOutcome :=
  let job := buildJobSpec fromV toV env.ownVersion
  match env.tmpErr with
  | some e =>
    { result := some e
      queryInvoked := queried
      resolvedFrom := some fromV
      resolvedTo := some toV
      jobBuilt := some job
      tempCreated := false
      serialized := none
      kubectlArgs := none }
  | none =>
    let args := ["create", "--validate=false", "-f", env.tmpName]
    match env.kubectlErr with
    | some e =>
      { result := some e
        queryInvoked := queried
        resolvedFrom := some fromV
        resolvedTo := some toV
        jobBuilt := some job
        tempCreated := true
        serialized := some (serializeJob job)
        kubectlArgs := some args }
    | none =>
      { result := none
        queryInvoked := queried
        resolvedFrom := some fromV
        resolvedTo := some toV
        jobBuilt := some job
        tempCreated := true
        serialized := some (serializeJob job)
        kubectlArgs := some args }

/-- The whole `migrate` Run closure.  The `--namespace` flag is bound to
a variable that the closure never reads; it is a parameter here for
exactly that reason. -/
def migrateRun (env : MigrateEnv) (fromFlag toFlag ns : String) :
    MigrateOutcome :=
  match resolveFrom env fromFlag with
  | .error o => o
  | .ok (fromV, queried) =>
    let toV := if toFlag = "" then
      prettyPrintVersionNoAdditional env.ownVersion else toFlag
    migrateAfterResolve env fromV toV queried

/-- Substring test on character lists, used to state whether an error
message mentions the server address. -/
def containsSub (hay needle : List Char) : Bool :=
  if needle.isPrefixOf hay then true
  else
    match hay with
    | [] => false
    | _ :: t => containsSub t needle

/-! ## The `port-forward` command

Modelled from the documented contract of `golang.org/x/sync/errgroup`:
`Wait` blocks until every function passed to `Go` has returned, then
returns the first non-nil error (in completion order) among them, or nil.
Each task is a function of the outcome of its `cmdutil.RunIO` subprocess
call (`none` = the subprocess succeeded, `some e` = it failed with
error `e`); the completion order of the goroutines is scheduler-chosen
and therefore an explicit parameter. -/

/-- The first non-nil task error, scanning tasks in completion order. -/
def firstErr (tasks : List (Option String)) (order : List Nat) : Option String :=
  order.findSome? (fun i => tasks.getD i none)

/-- `errgroup.Wait` as observed along a trace: `order` lists the tasks
that have completed so far, in completion order.  `Wait` produces a
result (`some aggregate`) exactly when every launched task has
completed; before that it is still blocked (`none`). -/
def egWaitTrace (tasks : List (Option String)) (order : List Nat) :
    Option (Option String) :=
  if List.Perm order (List.range tasks.length) then
    some (firstErr tasks order)
  else
    none

/-- The required pachd forward task: the `RunIO` error is returned
as-is. -/
def pachdForwardTask (runIOResult : Option String) : Option String :=
  runIOResult

/-- The dashboard-UI forward task: a `RunIO` failure is replaced by the
fixed diagnostic, which is *returned* to the errgroup (not printed). -/
def dashUIForwardTask (runIOResult : Option String) : Option String :=
  match runIOResult with
  | some _ => some "UI not enabled, deploy with --dashboard"
  | none => none

/-- The dashboard-websocket forward task: the `RunIO` result is
discarded and `nil` is returned unconditionally. -/
def dashWebsocketForwardTask (_runIOResult : Option String) : Option String :=
  none

/-- The three tasks the `port-forward` Run closure launches, in launch
order, as functions of their subprocess outcomes. -/
def portForwardTasks (pachdRes uiRes wsRes : Option String) :
    List (Option String) :=
  [pachdForwardTask pachdRes, dashUIForwardTask uiRes,
    dashWebsocketForwardTask wsRes]

/-! ## The `delete-all` command

`bufio.Reader.ReadBytes('\n')` is modelled from its documented contract:
it returns the input up to and including the first newline delimiter;
if no delimiter arrives before the stream ends it returns the data read
so far together with an error.  The Go code returns on any read error
without touching the data, so the model only distinguishes
success-with-line from failure. -/

/-- The line returned by `ReadBytes('\n')` on success: everything up to
and including the first newline.  `none` when the input holds no
newline, i.e. the read fails. -/
def takeThroughNewline : List Char → Option (List Char)
  | [] => none
  | c :: cs =>
    if c = '\n' then some ['\n']
    else
      match takeThroughNewline cs with
      | some line => some (c :: line)
      | none => none

structure DeleteAllOutcome where
  deleteCalls : Nat
  errorOut : Option String
  panicked : Bool
  deriving Repr, DecidableEq

/-- The `delete-all` Run closure: construct the client, prompt, read one
line, and call `DeleteAll` exactly when the first byte of the line is
`y` or `Y`.  `clientErr` is the client-construction outcome, `input` the
bytes pending on standard input, `deleteErr` the outcome `DeleteAll`
would return if called.  `panicked` records whether the `bytes[0]` index
was evaluated out of bounds. -/
def deleteAllRun (clientErr : Option String) (input : List Char)
    (deleteErr : Option String) : DeleteAllOutcome :=
  match clientErr with
  | some e => { deleteCalls := 0, errorOut := some (sanitizeErr e), panicked := false }
  | none =>
    match takeThroughNewline input with
    | none =>
      { deleteCalls := 0, errorOut := some "read error: EOF", panicked := false }
    | some line =>
      match line.head? with
      | none => { deleteCalls := 0, errorOut := none, panicked := true }
      | some c =>
        if c = 'y' ∨ c = 'Y' then
          { deleteCalls := 1, errorOut := deleteErr, panicked := false }
        else
          { deleteCalls := 0, errorOut := none, panicked := false }

/-! ## Helper lemmas -/

theorem exists_findSome?_of_mem {α β : Type} {f : α → Option β} {l : List α}
    {a : α} {b : β} (ha : a ∈ l) (hf : f a = some b) :
    ∃ c, l.findSome? f = some c := by
  induction l with
  | nil => simp at ha
  | cons x xs ih =>
    rw [List.findSome?_cons]
    cases hx : f x with
    | some c => exact ⟨c, rfl⟩
    | none =>
      rcases List.mem_cons.mp ha with h | h
      · subst h
        rw [hx] at hf
        exact absurd hf (by simp)
      · exact ih h

theorem findSome?_eq_of_unique {α β : Type} [DecidableEq α] {f : α → Option β}
    {l : List α} {a : α} {b : β} (ha : a ∈ l) (hf : f a = some b)
    (ho : ∀ x, x ≠ a → f x = none) : l.findSome? f = some b := by
  induction l with
  | nil => simp at ha
  | cons x xs ih =>
    rw [List.findSome?_cons]
    by_cases hx : x = a
    · subst hx
      rw [hf]
    · rw [ho x hx]
      apply ih
      rcases List.mem_cons.mp ha with h | h
      · exact absurd h.symm hx
      · exact h

theorem getD_eq_none_of_forall_none {l : List (Option String)}
    (h : ∀ t ∈ l, t = none) (i : Nat) : l.getD i none = none := by
  induction l generalizing i with
  | nil => simp [List.getD]
  | cons x xs ih =>
    cases i with
    | zero => simpa using h x (by simp)
    | succ n => simpa using ih (fun t ht => h t (by simp [ht])) n

theorem takeThroughNewline_some {input line : List Char}
    (h : takeThroughNewline input = some line) :
    line ≠ [] ∧ '\n' ∈ line := by
  induction input generalizing line with
  | nil => cases h
  | cons c cs ih =>
    unfold takeThroughNewline at h
    by_cases hc : c = '\n'
    · rw [if_pos hc] at h
      cases h
      simp
    · rw [if_neg hc] at h
      cases ht : takeThroughNewline cs with
      | none => rw [ht] at h; cases h
      | some rest =>
        rw [ht] at h
        cases h
        obtain ⟨h1, h2⟩ := ih ht
        exact ⟨by simp, by simp [h2]⟩

theorem migrateAfterResolve_fields (env : MigrateEnv) (fromV toV : String)
    (queried : Bool) :
    (migrateAfterResolve env fromV toV queried).resolvedFrom = some fromV ∧
    (migrateAfterResolve env fromV toV queried).resolvedTo = some toV ∧
    (migrateAfterResolve env fromV toV queried).queryInvoked = queried ∧
    (migrateAfterResolve env fromV toV queried).jobBuilt =
      some (buildJobSpec fromV toV env.ownVersion) := by
  unfold migrateAfterResolve
  cases env.tmpErr with
  | some e => simp
  | none => cases env.kubectlErr with
    | some e => simp
    | none => simp

theorem resolveFrom_error_shape {env : MigrateEnv} {fromFlag : String}
    {o : MigrateOutcome} (h : resolveFrom env fromFlag = .error o) :
    ∃ m q, o = earlyFailure m q := by
  unfold resolveFrom at h
  by_cases hf : fromFlag = ""
  · rw [if_pos hf] at h
    cases hd : env.dialErr with
    | some e =>
      rw [hd] at h
      exact ⟨sanitizeErr e, false, (Except.error.inj h).symm⟩
    | none =>
      rw [hd] at h
      cases hq : env.query with
      | error e =>
        rw [hq] at h
        exact ⟨_, true, (Except.error.inj h).symm⟩
      | ok v =>
        rw [hq] at h
        cases h
  · rw [if_neg hf] at h
    cases h

theorem resolveFrom_ok_of_ne {env : MigrateEnv} {fromFlag : String}
    (hf : fromFlag ≠ "") : resolveFrom env fromFlag = .ok (fromFlag, false) := by
  unfold resolveFrom
  rw [if_neg hf]

theorem deleteAllRun_client_failure (e : String) (input : List Char)
    (deleteErr : Option String) :
    deleteAllRun (some e) input deleteErr =
      { deleteCalls := 0, errorOut := some (sanitizeErr e), panicked := false } := rfl

theorem deleteAllRun_read_failure {input : List Char} {deleteErr : Option String}
    (hr : takeThroughNewline input = none) :
    deleteAllRun none input deleteErr =
      { deleteCalls := 0, errorOut := some "read error: EOF", panicked := false } := by
  unfold deleteAllRun
  rw [hr]

theorem deleteAllRun_line_yes {input line : List Char} {c : Char}
    {deleteErr : Option String} (hr : takeThroughNewline input = some line)
    (hh : line.head? = some c) (hc : c = 'y' ∨ c = 'Y') :
    deleteAllRun none input deleteErr =
      { deleteCalls := 1, errorOut := deleteErr, panicked := false } := by
  unfold deleteAllRun
  rw [hr]
  dsimp only
  rw [hh]
  dsimp only
  rw [if_pos hc]

theorem deleteAllRun_line_no {input line : List Char} {c : Char}
    {deleteErr : Option String} (hr : takeThroughNewline input = some line)
    (hh : line.head? = some c) (hc : ¬(c = 'y' ∨ c = 'Y')) :
    deleteAllRun none input deleteErr =
      { deleteCalls := 0, errorOut := none, panicked := false } := by
  unfold deleteAllRun
  rw [hr]
  dsimp only
  rw [hh]
  dsimp only
  rw [if_neg hc]

/-! ## Claim theorems -/

/-- C8: destructive-action guard of `delete-all`.  With a successfully
constructed client, the deletion is invoked exactly once iff the line
read from standard input begins with `y` or `Y`; any other line aborts
with no deletion and no error, and a read failure aborts with no
deletion and a reported error distinct from the silent user-declined
outcome. -/
theorem deleteAll_confirmation_gate :
    ∀ (input : List Char) (deleteErr : Option String),
      ((deleteAllRun none input deleteErr).deleteCalls = 1 ↔
        ∃ line, takeThroughNewline input = some line ∧
          (line.head? = some 'y' ∨ line.head? = some 'Y')) ∧
      (∀ line, takeThroughNewline input = some line →
        line.head? ≠ some 'y' → line.head? ≠ some 'Y' →
        deleteAllRun none input deleteErr =
          { deleteCalls := 0, errorOut := none, panicked := false }) ∧
      (takeThroughNewline input = none →
        (deleteAllRun none input deleteErr).deleteCalls = 0 ∧
        (deleteAllRun none input deleteErr).errorOut = some "read error: EOF") := by
  intro input deleteErr
  cases hr : takeThroughNewline input with
  | none =>
    rw [deleteAllRun_read_failure hr]
    refine ⟨by simp, ?_, fun _ => ⟨rfl, rfl⟩⟩
    intro line hline
    cases hline
  | some line =>
    obtain ⟨hne, _⟩ := takeThroughNewline_some hr
    obtain ⟨c, hh⟩ : ∃ c, line.head? = some c := by
      cases line with
      | nil => exact absurd rfl hne
      | cons c cs => exact ⟨c, rfl⟩
    by_cases hc : c = 'y' ∨ c = 'Y'
    · rw [deleteAllRun_line_yes hr hh hc]
      refine ⟨?_, ?_, ?_⟩
      · exact iff_of_true rfl
          ⟨line, rfl, by rcases hc with h | h <;> [left; right] <;> rw [hh, h]⟩
      · intro line2 hline2 hy hY
        obtain rfl : line = line2 := Option.some.inj hline2
        rcases hc with h | h
        · exact absurd (hh.trans (by rw [h])) hy
        · exact absurd (hh.trans (by rw [h])) hY
      · intro habs
        cases habs
    · rw [deleteAllRun_line_no hr hh hc]
      refine ⟨?_, ?_, ?_⟩
      · refine iff_of_false (by decide) ?_
        rintro ⟨line2, hline2, hy⟩
        obtain rfl : line = line2 := Option.some.inj hline2
        rw [hh] at hy
        rcases hy with h | h
        · exact hc (Or.inl (Option.some.inj h))
        · exact hc (Or.inr (Option.some.inj h))
      · intro _ _ _ _
        rfl
      · intro habs
        cases habs

/-- C8 witness: the spec scenario — input line `"n\n"` gives no deletion
and no error. -/
theorem deleteAll_confirmation_gate_check :
    deleteAllRun none "n\n".data none =
      { deleteCalls := 0, errorOut := none, panicked := false } :=
  (deleteAll_confirmation_gate "n\n".data none).2.1 ['n', '\n']
    (by decide) (by decide) (by decide)

/-- C10: indexing the first byte of the line read by the `delete-all`
gate is always in bounds: a successful buffered read up to the newline
delimiter returns a non-empty byte slice containing the delimiter, and
on a read error the closure returns before the index is evaluated, so
no run of the gate panics. -/
theorem deleteAll_first_byte_index_safe :
    (∀ (input line : List Char), takeThroughNewline input = some line →
      line ≠ [] ∧ '\n' ∈ line) ∧
    (∀ (clientErr : Option String) (input : List Char)
        (deleteErr : Option String),
      (deleteAllRun clientErr input deleteErr).panicked = false) := by
  refine ⟨fun input line h => takeThroughNewline_some h, ?_⟩
  intro clientErr input deleteErr
  cases clientErr with
  | some e => rw [deleteAllRun_client_failure]
  | none =>
    cases hr : takeThroughNewline input with
    | none => rw [deleteAllRun_read_failure hr]
    | some line =>
      obtain ⟨hne, _⟩ := takeThroughNewline_some hr
      obtain ⟨c, hh⟩ : ∃ c, line.head? = some c := by
        cases line with
        | nil => exact absurd rfl hne
        | cons c cs => exact ⟨c, rfl⟩
      by_cases hc : c = 'y' ∨ c = 'Y'
      · rw [deleteAllRun_line_yes hr hh hc]
      · rw [deleteAllRun_line_no hr hh hc]

/-- C10 witness: a concrete successful read (`"y\n"`) yields a non-empty
line containing the delimiter, and a concrete gate run does not panic. -/
theorem deleteAll_first_byte_index_safe_check :
    (['y', '\n'] ≠ [] ∧ '\n' ∈ ['y', '\n']) ∧
    (deleteAllRun none "y\n".data none).panicked = false :=
  ⟨deleteAll_first_byte_index_safe.1 "y\n".data ['y', '\n'] (by decide),
   deleteAll_first_byte_index_safe.2 none "y\n".data none⟩

/-- C1 counterexample: a failure of the best-effort dashboard-UI task
alone (pachd and websocket subprocesses succeed) makes the supervisor's
aggregate result a failure, because the UI task *returns* its
replacement diagnostic to the errgroup instead of printing it. -/
theorem portForward_ui_failure_fails_supervisor :
    egWaitTrace (portForwardTasks none (some "connection refused") none)
      [0, 1, 2] = some (some "UI not enabled, deploy with --dashboard") := by
  decide

/-- C1 (amended): a failure of the silent best-effort
dashboard-websocket task never causes the supervisor's aggregate result
to be a failure; the best-effort dashboard-UI task, however, fails the
supervisor with the fixed diagnostic when its subprocess fails.  When
the required pachd task and both best-effort tasks all fail, the
aggregate result is a failure, the websocket failure never appears in
the aggregate error, but the aggregate error may be either the pachd
error or the dashboard-UI diagnostic, depending on completion order. -/
theorem portForward_bestEffort_failure_policy :
    (∀ (ws : Option String) (order : List Nat),
      List.Perm order (List.range 3) →
      egWaitTrace (portForwardTasks none none ws) order = some none) ∧
    (∀ (ep eu ew : String) (order : List Nat),
      List.Perm order (List.range 3) →
      ∃ e, egWaitTrace (portForwardTasks (some ep) (some eu) (some ew)) order
          = some (some e) ∧
        (e = ep ∨ e = "UI not enabled, deploy with --dashboard")) := by
  constructor
  · intro ws order hperm
    have hp2 : List.Perm order
        (List.range (portForwardTasks none none ws).length) := hperm
    unfold egWaitTrace
    rw [if_pos hp2]
    congr 1
    unfold firstErr
    rw [List.findSome?_eq_none_iff]
    intro i _
    apply getD_eq_none_of_forall_none
    intro t ht
    simp [portForwardTasks, pachdForwardTask, dashUIForwardTask,
      dashWebsocketForwardTask] at ht
    exact ht
  · intro ep eu ew order hperm
    have hp2 : List.Perm order
        (List.range (portForwardTasks (some ep) (some eu) (some ew)).length) :=
      hperm
    have h0 : (0 : Nat) ∈ order := hperm.mem_iff.mpr (by simp)
    obtain ⟨c, hc⟩ := exists_findSome?_of_mem
      (f := fun i => (portForwardTasks (some ep) (some eu) (some ew)).getD i none)
      h0 rfl
    refine ⟨c, ?_, ?_⟩
    · unfold egWaitTrace
      rw [if_pos hp2]
      unfold firstErr
      rw [hc]
    · obtain ⟨i, hi, hfi⟩ := List.exists_of_findSome?_eq_some hc
      have hmem : i ∈ List.range 3 := hperm.mem_iff.mp hi
      have hi3 : i < 3 := List.mem_range.mp hmem
      interval_cases i
      · left
        exact (Option.some.inj hfi).symm
      · right
        exact (Option.some.inj hfi).symm
      · exact absurd hfi (by simp [portForwardTasks, dashWebsocketForwardTask])

/-- C1 witness: a websocket-only failure with a concrete completion
order yields aggregate success, and a run where all three subprocesses
fail yields an aggregate failure from the pachd error or the UI
diagnostic. -/
theorem portForward_bestEffort_failure_policy_check :
    egWaitTrace (portForwardTasks none none (some "ws down")) [2, 0, 1]
      = some none ∧
    ∃ e, egWaitTrace
        (portForwardTasks (some "exit status 1") (some "exit status 1")
          (some "exit status 1")) [0, 1, 2] = some (some e) ∧
      (e = "exit status 1" ∨ e = "UI not enabled, deploy with --dashboard") :=
  ⟨portForward_bestEffort_failure_policy.1 (some "ws down") [2, 0, 1]
      (by decide),
   portForward_bestEffort_failure_policy.2 "exit status 1" "exit status 1"
      "exit status 1" [0, 1, 2] (by decide)⟩

/-- C7 counterexample: when the required pachd task fails but the
dashboard-UI task also fails and completes first, the aggregate result
is the UI diagnostic, not the required task's error — the required
error does not surface. -/
theorem portForward_required_error_can_be_masked :
    egWaitTrace
        (portForwardTasks (some "exit status 1")
          (some "dial tcp: connection refused") none) [1, 0, 2]
      = some (some "UI not enabled, deploy with --dashboard") ∧
    "UI not enabled, deploy with --dashboard" ≠ "exit status 1" := by
  constructor
  · decide
  · decide

/-- C7 (amended): the supervisor produces a result only once every
launched task has completed (no early return); with zero failing tasks
the aggregate result is success; when the required pachd task fails and
both best-effort tasks succeed the aggregate result is exactly the
required task's error; and whenever the required task fails the
aggregate result is some failure — though if the dashboard-UI task
fails too, its diagnostic may mask the required error. -/
theorem portForward_wait_blocks_until_all_complete :
    (∀ (tasks : List (Option String)) (order : List Nat) (r : Option String),
      egWaitTrace tasks order = some r →
      List.Perm order (List.range tasks.length)) ∧
    (∀ (tasks : List (Option String)) (order : List Nat),
      (∀ t ∈ tasks, t = none) →
      List.Perm order (List.range tasks.length) →
      egWaitTrace tasks order = some none) ∧
    (∀ (e : String) (order : List Nat),
      List.Perm order (List.range 3) →
      egWaitTrace (portForwardTasks (some e) none none) order
        = some (some e)) ∧
    (∀ (e : String) (u w : Option String) (order : List Nat),
      List.Perm order (List.range 3) →
      ∃ r, egWaitTrace (portForwardTasks (some e) u w) order
          = some (some r)) := by
  refine ⟨?_, ?_, ?_, ?_⟩
  · intro tasks order r h
    unfold egWaitTrace at h
    by_cases hp : List.Perm order (List.range tasks.length)
    · exact hp
    · rw [if_neg hp] at h
      cases h
  · intro tasks order hall hperm
    unfold egWaitTrace
    rw [if_pos hperm]
    congr 1
    unfold firstErr
    rw [List.findSome?_eq_none_iff]
    intro i _
    exact getD_eq_none_of_forall_none hall i
  · intro e order hperm
    have hp2 : List.Perm order
        (List.range (portForwardTasks (some e) none none).length) := hperm
    have h0 : (0 : Nat) ∈ order := hperm.mem_iff.mpr (by simp)
    unfold egWaitTrace
    rw [if_pos hp2]
    congr 1
    unfold firstErr
    refine findSome?_eq_of_unique
      (f := fun i => (portForwardTasks (some e) none none).getD i none)
      h0 rfl ?_
    intro i hi
    match i with
    | 0 => exact absurd rfl hi
    | 1 => rfl
    | 2 => rfl
    | n + 3 => rfl
  · intro e u w order hperm
    have hp2 : List.Perm order
        (List.range (portForwardTasks (some e) u w).length) := hperm
    have h0 : (0 : Nat) ∈ order := hperm.mem_iff.mpr (by simp)
    obtain ⟨c, hc⟩ := exists_findSome?_of_mem
      (f := fun i => (portForwardTasks (some e) u w).getD i none) h0 rfl
    refine ⟨c, ?_⟩
    unfold egWaitTrace
    rw [if_pos hp2]
    unfold firstErr
    rw [hc]

/-- C7 witness: concrete instances of the four parts — a produced
result forces a complete trace, an all-success run aggregates to
success, a required-only failure surfaces exactly, and a required
failure always yields some aggregate failure. -/
theorem portForward_wait_blocks_until_all_complete_check :
    List.Perm [1, 0] (List.range ([none, none] : List (Option String)).length) ∧
    egWaitTrace [none] [0] = some none ∧
    egWaitTrace (portForwardTasks (some "exit status 1") none none) [2, 1, 0]
      = some (some "exit status 1") ∧
    ∃ r, egWaitTrace (portForwardTasks (some "boom") none (some "x")) [0, 1, 2]
        = some (some r) :=
  ⟨portForward_wait_blocks_until_all_complete.1 [none, none] [1, 0] none
      (by decide),
   portForward_wait_blocks_until_all_complete.2.1 [none] [0] (by simp)
      (by decide),
   portForward_wait_blocks_until_all_complete.2.2.1 "exit status 1" [2, 1, 0]
      (by decide),
   portForward_wait_blocks_until_all_complete.2.2.2 "boom" none (some "x")
      [0, 1, 2] (by decide)⟩

/-- Concrete environment for migrate runs in which the 1s-bounded
cluster-version query times out. -/
def envQueryTimeout : MigrateEnv :=
  { address := "127.0.0.1:30650"
    dialErr := none
    query := .error "context deadline exceeded"
    ownVersion := ⟨1, 5, 0, ""⟩
    tmpErr := none
    tmpName := "/tmp/migration-job"
    kubectlErr := none }

/-- Concrete environment for migrate runs in which the cluster reports
version 1.4.8 and the client is version 1.5.0. -/
def envCluster148 : MigrateEnv :=
  { address := "127.0.0.1:30650"
    dialErr := none
    query := .ok ⟨1, 4, 8, ""⟩
    ownVersion := ⟨1, 5, 0, ""⟩
    tmpErr := none
    tmpName := "/tmp/migration-job"
    kubectlErr := none }

/-- C2 counterexample: with `--from` empty and the query failing by
timeout against `127.0.0.1:30650`, the error message instructs the
caller to pass `--from` but does not name the unreachable server
address anywhere. -/
theorem migrate_query_failure_message_omits_address :
    (migrateRun envQueryTimeout "" "" "default").result =
      some "unable to discover cluster version; please provide the --from flag.  Error: context deadline exceeded" ∧
    containsSub
      "unable to discover cluster version; please provide the --from flag.  Error: context deadline exceeded".data
      "127.0.0.1:30650".data = false := by
  constructor
  · rfl
  · decide

/-- C2 (amended): for every migrate invocation where `--from` is empty
and the live-version query fails, the command returns an error whose
message instructs the caller to supply `--from` explicitly and embeds
the underlying query error (but does not name the server address), and
no JobDescription is constructed, no temporary artifact is created,
nothing is serialized and `kubectl` is never invoked. -/
theorem migrate_query_failure_aborts_before_build :
    ∀ (env : MigrateEnv) (toFlag ns e : String),
      env.dialErr = none → env.query = .error e →
      (migrateRun env "" toFlag ns).result =
        some ("unable to discover cluster version; please provide the --from flag.  Error: " ++ e) ∧
      (migrateRun env "" toFlag ns).jobBuilt = none ∧
      (migrateRun env "" toFlag ns).tempCreated = false ∧
      (migrateRun env "" toFlag ns).serialized = none ∧
      (migrateRun env "" toFlag ns).kubectlArgs = none := by
  intro env toFlag ns e hd hq
  have hres : migrateRun env "" toFlag ns =
      earlyFailure
        ("unable to discover cluster version; please provide the --from flag.  Error: " ++ e)
        true := by
    unfold migrateRun resolveFrom
    rw [if_pos rfl, hd, hq]
  rw [hres]
  exact ⟨rfl, rfl, rfl, rfl, rfl⟩

/-- C2 witness: the amended claim at the concrete timed-out
environment. -/
theorem migrate_query_failure_aborts_before_build_check :
    (migrateRun envQueryTimeout "" "" "default").result =
      some ("unable to discover cluster version; please provide the --from flag.  Error: " ++ "context deadline exceeded") ∧
    (migrateRun envQueryTimeout "" "" "default").jobBuilt = none ∧
    (migrateRun envQueryTimeout "" "" "default").tempCreated = false ∧
    (migrateRun envQueryTimeout "" "" "default").serialized = none ∧
    (migrateRun envQueryTimeout "" "" "default").kubectlArgs = none :=
  migrate_query_failure_aborts_before_build envQueryTimeout "" "default"
    "context deadline exceeded" rfl rfl

/-- C3: with non-empty explicit `--from` and `--to`, the resolved pair
is exactly the supplied values and the live-version query (and the
client dial before it) is never invoked. -/
theorem migrate_explicit_versions_skip_query :
    ∀ (env : MigrateEnv) (fromFlag toFlag ns : String),
      fromFlag ≠ "" → toFlag ≠ "" →
      (migrateRun env fromFlag toFlag ns).resolvedFrom = some fromFlag ∧
      (migrateRun env fromFlag toFlag ns).resolvedTo = some toFlag ∧
      (migrateRun env fromFlag toFlag ns).queryInvoked = false := by
  intro env fromFlag toFlag ns hf ht
  have hres : migrateRun env fromFlag toFlag ns =
      migrateAfterResolve env fromFlag toFlag false := by
    unfold migrateRun
    rw [resolveFrom_ok_of_ne hf]
    dsimp only
    rw [if_neg ht]
  rw [hres]
  obtain ⟨h1, h2, h3, _⟩ := migrateAfterResolve_fields env fromFlag toFlag false
  exact ⟨h1, h2, h3⟩

/-- C3 witness: explicit `--from 1.4.8 --to 1.5.0` resolves verbatim
without querying, even in an environment whose query would fail. -/
theorem migrate_explicit_versions_skip_query_check :
    (migrateRun envQueryTimeout "1.4.8" "1.5.0" "default").resolvedFrom
      = some "1.4.8" ∧
    (migrateRun envQueryTimeout "1.4.8" "1.5.0" "default").resolvedTo
      = some "1.5.0" ∧
    (migrateRun envQueryTimeout "1.4.8" "1.5.0" "default").queryInvoked
      = false :=
  migrate_explicit_versions_skip_query envQueryTimeout "1.4.8" "1.5.0"
    "default" (by decide) (by decide)

/-- C4: whenever `--to` is empty and resolution completes, the resolved
`to` is the client's own version formatted with qualifiers stripped;
and the spec scenario — empty flags, own version 1.5.0, query returning
1.4.8 — resolves to `from = 1.4.8`, `to = 1.5.0`. -/
theorem migrate_default_to_is_client_version :
    (∀ (env : MigrateEnv) (fromFlag ns t : String),
      (migrateRun env fromFlag "" ns).resolvedTo = some t →
      t = prettyPrintVersionNoAdditional env.ownVersion) ∧
    (migrateRun envCluster148 "" "" "default").resolvedFrom = some "1.4.8" ∧
    (migrateRun envCluster148 "" "" "default").resolvedTo = some "1.5.0" := by
  refine ⟨?_, by decide, by decide⟩
  intro env fromFlag ns t h
  unfold migrateRun at h
  cases hres : resolveFrom env fromFlag with
  | error o =>
    rw [hres] at h
    dsimp only at h
    obtain ⟨m, q, rfl⟩ := resolveFrom_error_shape hres
    cases h
  | ok p =>
    rw [hres] at h
    dsimp only at h
    obtain ⟨_, h2, _, _⟩ := migrateAfterResolve_fields env p.1
      (if "" = "" then prettyPrintVersionNoAdditional env.ownVersion else "")
      p.2
    rw [h2] at h
    have := Option.some.inj h
    rw [← this, if_pos rfl]

/-- C4 witness: the universally quantified part applied at the concrete
scenario environment. -/
theorem migrate_default_to_is_client_version_check :
    "1.5.0" = prettyPrintVersionNoAdditional envCluster148.ownVersion :=
  migrate_default_to_is_client_version.1 envCluster148 "" "default" "1.5.0"
    (by decide)

/-- C5: every JobDescription built from a completed resolution has the
fixed metadata name `pach-migration`, the single label
`suite=pachyderm`, kind `Job` and apiVersion `batch/v1`, one container
whose image is `pachyderm/pachd:` followed by the client's own
formatted version and whose command carries the single flag value
`--migrate=<from>-<to>`, and restart policy `OnFailure`. -/
theorem migrate_job_description_fields :
    ∀ (env : MigrateEnv) (fromFlag toFlag ns : String)
      (j : JobDescription) (rf rt : String),
      (migrateRun env fromFlag toFlag ns).jobBuilt = some j →
      (migrateRun env fromFlag toFlag ns).resolvedFrom = some rf →
      (migrateRun env fromFlag toFlag ns).resolvedTo = some rt →
      j.kind = "Job" ∧ j.apiVersion = "batch/v1" ∧
      j.name = "pach-migration" ∧ j.labels = [("suite", "pachyderm")] ∧
      j.containers =
        [{ name := "migration"
           image := "pachyderm/pachd:" ++ prettyPrintVersion env.ownVersion
           command := ["/pachd", "--migrate=" ++ rf ++ "-" ++ rt] }] ∧
      j.restartPolicy = "OnFailure" := by
  intro env fromFlag toFlag ns j rf rt hj hf ht
  unfold migrateRun at hj hf ht
  cases hres : resolveFrom env fromFlag with
  | error o =>
    rw [hres] at hj
    dsimp only at hj
    obtain ⟨m, q, rfl⟩ := resolveFrom_error_shape hres
    cases hj
  | ok p =>
    rw [hres] at hj hf ht
    dsimp only at hj hf ht
    obtain ⟨h1, h2, _, h4⟩ := migrateAfterResolve_fields env p.1
      (if toFlag = "" then prettyPrintVersionNoAdditional env.ownVersion
        else toFlag) p.2
    rw [h1] at hf
    rw [h2] at ht
    rw [h4] at hj
    obtain rfl : rf = p.1 := (Option.some.inj hf).symm
    obtain rfl := (Option.some.inj ht).symm
    obtain rfl := (Option.some.inj hj).symm
    exact ⟨rfl, rfl, rfl, rfl, rfl, rfl⟩

/-- C5 witness: the field properties at the concrete 1.4.8 → 1.5.0
resolution. -/
theorem migrate_job_description_fields_check :
    (buildJobSpec "1.4.8" "1.5.0" ⟨1, 5, 0, ""⟩).kind = "Job" ∧
    (buildJobSpec "1.4.8" "1.5.0" ⟨1, 5, 0, ""⟩).apiVersion = "batch/v1" ∧
    (buildJobSpec "1.4.8" "1.5.0" ⟨1, 5, 0, ""⟩).name = "pach-migration" ∧
    (buildJobSpec "1.4.8" "1.5.0" ⟨1, 5, 0, ""⟩).labels
      = [("suite", "pachyderm")] ∧
    (buildJobSpec "1.4.8" "1.5.0" ⟨1, 5, 0, ""⟩).containers =
      [{ name := "migration"
         image := "pachyderm/pachd:"
           ++ prettyPrintVersion envCluster148.ownVersion
         command := ["/pachd", "--migrate=" ++ "1.4.8" ++ "-" ++ "1.5.0"] }] ∧
    (buildJobSpec "1.4.8" "1.5.0" ⟨1, 5, 0, ""⟩).restartPolicy = "OnFailure" :=
  migrate_job_description_fields envCluster148 "" "" "default"
    (buildJobSpec "1.4.8" "1.5.0" ⟨1, 5, 0, ""⟩) "1.4.8" "1.5.0"
    (by decide) (by decide) (by decide)

/-- C6: serialization is deterministic — two constructions from the
same resolved MigrationRequest serialize to byte-identical text.  The
encoder is modelled canonically: label keys are sorted and indentation
is fixed by construction, so the artifact depends only on the request. -/
theorem migrate_serialization_deterministic :
    ∀ (r₁ r₂ : MigrationRequest), r₁ = r₂ →
      serializeJob (buildJobFromRequest r₁)
        = serializeJob (buildJobFromRequest r₂) := by
  intro r₁ r₂ h
  rw [h]

/-- C6 witness: byte-identical artifacts for the concrete
1.4.8 → 1.5.0 request. -/
theorem migrate_serialization_deterministic_check :
    serializeJob (buildJobFromRequest ⟨"1.4.8", "1.5.0", ⟨1, 5, 0, ""⟩⟩)
      = serializeJob (buildJobFromRequest ⟨"1.4.8", "1.5.0", ⟨1, 5, 0, ""⟩⟩) :=
  migrate_serialization_deterministic ⟨"1.4.8", "1.5.0", ⟨1, 5, 0, ""⟩⟩
    ⟨"1.4.8", "1.5.0", ⟨1, 5, 0, ""⟩⟩ rfl

/-- C9: the `--namespace` flag value is dead — two migrate runs
differing only in the namespace produce identical outcomes: the same
result, the same JobDescription, the same serialized artifact and the
same `kubectl` submission command line. -/
theorem migrate_namespace_flag_unused :
    ∀ (env : MigrateEnv) (fromFlag toFlag ns₁ ns₂ : String),
      migrateRun env fromFlag toFlag ns₁ = migrateRun env fromFlag toFlag ns₂ :=
  fun _ _ _ _ _ => rfl

end Pachctl
